import Mathlib

/-!
Shallow embedding of the BeerGame decision endpoint (`src/api/decision.js`,
"BullwhipBreakerPlus" v1.1.0 variant — the most advanced variant present in
the source tree) together with a spec-modelled variant of the newest
controller described only in the specification (pressure re-tuning, backlog
drain).  Numbers are modelled as rationals; `Math.sqrt` — the only
irrational operation — is abstracted as a function parameter `S : ℚ → ℚ`.
`Math.round` is round-half-towards-plus-infinity, i.e. `⌊x + 1/2⌋`.
-/

namespace BeerBot

/-- The four supply-chain roles (`ROLES` in the source). -/
inductive Role where
  | retailer
  | wholesaler
  | distributor
  | factory
deriving DecidableEq, Repr

/-- The two information-sharing modes; `computeOrders` normalises the
request `mode` field to one of these two values. -/
inductive Mode where
  | blackbox
  | glassbox
deriving DecidableEq, Repr

/-- Per-role policy parameters (`PARAMS` records in the source). -/
structure Params where
  L : ℕ
  alphaBase : ℚ
  alphaMin : ℚ
  alphaMax : ℚ
  alphaK : ℚ
  smooth : ℚ
  safetyWeeks : ℚ
  z : ℚ
  clipWindow : ℕ
  clipK : ℚ
  maxOrder : ℕ

/-- The parameter table `PARAMS` of the v1.1.0 source. -/
def PARAMS : Role → Params
  | Role.retailer =>
      { L := 4, alphaBase := 55/100, alphaMin := 20/100, alphaMax := 85/100,
        alphaK := 35/100, smooth := 20/100, safetyWeeks := 110/100, z := 1,
        clipWindow := 0, clipK := 0, maxOrder := 350 }
  | Role.wholesaler =>
      { L := 4, alphaBase := 40/100, alphaMin := 15/100, alphaMax := 75/100,
        alphaK := 25/100, smooth := 30/100, safetyWeeks := 115/100, z := 11/10,
        clipWindow := 6, clipK := 23/10, maxOrder := 350 }
  | Role.distributor =>
      { L := 4, alphaBase := 33/100, alphaMin := 12/100, alphaMax := 70/100,
        alphaK := 22/100, smooth := 35/100, safetyWeeks := 120/100, z := 115/100,
        clipWindow := 6, clipK := 22/10, maxOrder := 380 }
  | Role.factory =>
      { L := 4, alphaBase := 28/100, alphaMin := 10/100, alphaMax := 65/100,
        alphaK := 20/100, smooth := 40/100, safetyWeeks := 125/100, z := 12/10,
        clipWindow := 6, clipK := 21/10, maxOrder := 420 }

/-- Source `clamp(x, lo, hi) = Math.max(lo, Math.min(hi, x))`. -/
def clamp (x lo hi : ℚ) : ℚ := max lo (min hi x)

/-- JavaScript `Math.round`: round half towards plus infinity. -/
def jsRound (x : ℚ) : ℤ := ⌊x + 1/2⌋

/-- Source `toNonNegInt`: round, then floor at zero (non-finite inputs are handled
at extraction by the `Option` in the input model).  The result is a
non-negative integer. -/
def toNonNegInt (x : ℚ) : ℤ := max 0 (jsRound x)

/-- Source `mean(arr)`: arithmetic mean, `0` for the empty list. -/
def mean (l : List ℚ) : ℚ := if l.length = 0 then 0 else l.sum / l.length

/-- Source `median(arr)`: median of a sorted copy, averaging the two middle
elements for lists of even length; `0` for the empty list. -/
def median (l : List ℚ) : ℚ :=
  if l.length = 0 then 0 else
    let a := List.insertionSort (· ≤ ·) l
    let mid := l.length / 2
    if l.length % 2 = 1 then a.getD mid 0
    else (a.getD (mid - 1) 0 + a.getD mid 0) / 2

/-- Source `mad(arr)`: median absolute deviation from the median. -/
def mad (l : List ℚ) : ℚ :=
  if l.length = 0 then 0 else median (l.map (fun x => |x - median l|))

section WithSqrt

variable (S : ℚ → ℚ)

/-- Source `stdev(arr)`: sample standard deviation (divisor `n − 1`), `0` for
fewer than two elements; the square root is the abstract `S`. -/
def stdev (l : List ℚ) : ℚ :=
  if l.length < 2 then 0
  else S ((l.map (fun x => (x - mean l) * (x - mean l))).sum / ((l.length : ℚ) - 1))

/-- The clipping scale of `clipSeriesRolling`: `1.4826·MAD` when `MAD > 0`,
else the window's sample standard deviation. -/
def scaleOf (hist : List ℚ) : ℚ :=
  if 0 < mad hist then 14826/10000 * mad hist else stdev S hist

/-- One step of the rolling clipper: pass through when the window holds
fewer than 3 values, else clamp into `[m − k·scale, m + k·scale]`. -/
def clipVal (k : ℚ) (hist : List ℚ) (x : ℚ) : ℚ :=
  if hist.length < 3 then x
  else clamp x (median hist - k * scaleOf S hist) (median hist + k * scaleOf S hist)

/-- Loop of `clipSeriesRolling`: `out` is the already-clipped prefix; the
window is the last `w` entries of `out` (`out.slice(max(0, i−w), i)`). -/
def clipAux (w : ℕ) (k : ℚ) : List ℚ → List ℚ → List ℚ
  | out, [] => out
  | out, x :: rest =>
      clipAux w k (out ++ [clipVal S k (out.drop (out.length - w)) x]) rest

/-- Source `clipSeriesRolling(series, window, k)`. -/
def clipSeriesRolling (series : List ℚ) (w : ℕ) (k : ℚ) : List ℚ :=
  clipAux S w k [] series

end WithSqrt

/-- Source `adaptiveSES(series, p)`: adaptive exponential smoothing, seeded with
the first observation; the weight is `alphaBase + alphaK·|err|/(|f|+1)`
clamped into `[alphaMin, alphaMax]`. -/
def adaptiveSES (p : Params) (series : List ℚ) : ℚ :=
  match series with
  | [] => 0
  | x :: rest =>
      rest.foldl (fun f y =>
        f + clamp (p.alphaBase + p.alphaK * (|y - f| / (|f| + 1))) p.alphaMin p.alphaMax
              * (y - f)) x

/-- One role's cell of a week snapshot.  A field is `some q` when the JSON
holds a finite number there and `none` otherwise (missing / non-numeric /
non-finite), mirroring `safeGet`'s fallback behaviour. -/
structure RoleCells where
  inventory : Option ℚ
  backlog : Option ℚ
  incoming_orders : Option ℚ
  arriving_shipments : Option ℚ

/-- One week snapshot of the request body. -/
structure Week where
  roles : Role → RoleCells
  orders : Role → Option ℚ

/-- Extraction `toNonNegInt(safeGet(...))`: missing data defaults to `0`. -/
def getNum (o : Option ℚ) : ℤ :=
  match o with
  | none => 0
  | some q => toNonNegInt q

/-- The five aligned per-role series produced by `roleHistory`. -/
structure RoleHist where
  inv : List ℤ
  back : List ℤ
  incOrd : List ℤ
  arrShip : List ℤ
  myOrders : List ℤ

/-- Source `roleHistory(weeks, role)`. -/
def roleHistory (weeks : List Week) (role : Role) : RoleHist where
  inv := weeks.map fun w => getNum (w.roles role).inventory
  back := weeks.map fun w => getNum (w.roles role).backlog
  incOrd := weeks.map fun w => getNum (w.roles role).incoming_orders
  arrShip := weeks.map fun w => getNum (w.roles role).arriving_shipments
  myOrders := weeks.map fun w => getNum (w.orders role)

/-- Loop of `estimatePipeline`:
`pipe = max(0, pipe − arrShip[i]) + (myOrders[i] ?? 0)`. -/
def pipeAux : ℤ → List ℤ → List ℤ → ℤ
  | pipe, [], _ => pipe
  | pipe, a :: rest, os => pipeAux (max 0 (pipe - a) + os.headD 0) rest os.tail

/-- Source `estimatePipeline(arrShip, myOrders, forecast, L)` of the v1.1.0
source: seeded with `max(0, round(L × forecast))`. -/
def estimatePipeline (arrShip myOrders : List ℤ) (forecast : ℚ) (L : ℕ) : ℤ :=
  pipeAux (max 0 (jsRound ((L : ℚ) * forecast))) arrShip myOrders

/-- Source `chooseSharedDemandSeries(weeks)`: the retailer's incoming-orders
column, extracted directly from the snapshots. -/
def chooseSharedDemandSeries (weeks : List Week) : List ℤ :=
  weeks.map fun w => getNum (w.roles Role.retailer).incoming_orders

/-- Cast a series of extracted integers to rationals. -/
def intCastList (l : List ℤ) : List ℚ := List.map (fun n : ℤ => (n : ℚ)) l

/-- The demand series before clipping: shared reference series under
glassbox, the role's own incoming orders under blackbox. -/
def baseSeries (role : Role) (mode : Mode) (weeks : List Week) : List ℚ :=
  match mode with
  | Mode.glassbox => intCastList (chooseSharedDemandSeries weeks)
  | Mode.blackbox => intCastList ((roleHistory weeks role).incOrd)

/-- The clipping gate of `computeOrderForRole`:
`mode === "blackbox" && p.clipWindow && role !== "retailer"`. -/
def clipApplies (role : Role) (mode : Mode) : Bool :=
  mode == Mode.blackbox && (PARAMS role).clipWindow != 0 && role != Role.retailer

section WithSqrt2

variable (S : ℚ → ℚ)

/-- The demand series actually fed to the forecaster in
`computeOrderForRole`. -/
def demandSeriesForRole (role : Role) (mode : Mode) (weeks : List Week) : List ℚ :=
  let base := baseSeries role mode weeks
  if clipApplies role mode then
    clipSeriesRolling S base (PARAMS role).clipWindow (PARAMS role).clipK
  else base

/-- Source `h.xs.at(-1) ?? 0`: the last element, or `0` when empty. -/
def lastD (l : List ℤ) : ℤ := l.getLastD 0

/-- The safety stock of `computeOrderForRole`:
`max(0, round(safetyWeeks·forecast + z·sigma·sqrt(L+1)))`. -/
def safetyOf (p : Params) (forecast sigma : ℚ) : ℤ :=
  max 0 (jsRound (p.safetyWeeks * forecast + p.z * sigma * S ((p.L : ℚ) + 1)))

/-- The order-up-to target `round((L+1)·forecast + safety)`. -/
def targetIPOf (p : Params) (forecast sigma : ℚ) : ℤ :=
  jsRound (((p.L : ℚ) + 1) * forecast + (safetyOf S p forecast sigma : ℚ))

/-- The raw order `max(0, targetIP − IP)` where `IP = (inv − back) + pipe`. -/
def rawOrderOf (p : Params) (forecast sigma : ℚ) (invNow backNow pipe : ℤ) : ℤ :=
  max 0 (targetIPOf S p forecast sigma - (invNow - backNow + pipe))

/-- The forecast computed by `computeOrderForRole`. -/
def forecastOf (role : Role) (mode : Mode) (weeks : List Week) : ℚ :=
  adaptiveSES (PARAMS role) (demandSeriesForRole S role mode weeks)

/-- The recent-volatility estimate of `computeOrderForRole`
(`stdev` of the trailing 8 observations of the demand series). -/
def sigmaOf (role : Role) (mode : Mode) (weeks : List Week) : ℚ :=
  stdev S ((demandSeriesForRole S role mode weeks).drop
    ((demandSeriesForRole S role mode weeks).length - 8))

/-- The pipeline estimate as invoked by `computeOrderForRole`. -/
def pipeOf (role : Role) (mode : Mode) (weeks : List Week) : ℤ :=
  estimatePipeline (roleHistory weeks role).arrShip (roleHistory weeks role).myOrders
    (forecastOf S role mode weeks) (PARAMS role).L

/-- The raw order of `computeOrderForRole` for a given history. -/
def rawOf (role : Role) (mode : Mode) (weeks : List Week) : ℤ :=
  rawOrderOf S (PARAMS role) (forecastOf S role mode weeks) (sigmaOf S role mode weeks)
    (lastD (roleHistory weeks role).inv) (lastD (roleHistory weeks role).back)
    (pipeOf S role mode weeks)

/-- The smoothed order `(1 − smooth)·raw + smooth·prevOrder`. -/
def smoothedOf (role : Role) (mode : Mode) (weeks : List Week) : ℚ :=
  (1 - (PARAMS role).smooth) * ((rawOf S role mode weeks : ℤ) : ℚ)
    + (PARAMS role).smooth * ((lastD (roleHistory weeks role).myOrders : ℤ) : ℚ)

/-- The asymmetric rate-limit bound on increase:
`max(10, round((backNow > 0 ? 6 : 4)·max(1, forecast)))`. -/
def maxUpOf (role : Role) (mode : Mode) (weeks : List Week) : ℤ :=
  max 10 (jsRound ((if 0 < lastD (roleHistory weeks role).back then 6 else 4)
    * max 1 (forecastOf S role mode weeks)))

/-- The rate-limit bound on decrease: `max(10, round(2.5·max(1, forecast)))`. -/
def maxDownOf (role : Role) (mode : Mode) (weeks : List Week) : ℤ :=
  max 10 (jsRound (5/2 * max 1 (forecastOf S role mode weeks)))

/-- Source `computeOrderForRole({role, weeks, mode, sharedDemandSeries})` of the
v1.1.0 source: smoothed raw order, rate-limited, clamped into
`[0, maxOrder]` and converted to a non-negative integer. -/
def computeOrderForRole (role : Role) (mode : Mode) (weeks : List Week) : ℤ :=
  toNonNegInt (clamp
    (clamp (smoothedOf S role mode weeks)
      ((lastD (roleHistory weeks role).myOrders : ℚ) - ((maxDownOf S role mode weeks : ℤ) : ℚ))
      ((lastD (roleHistory weeks role).myOrders : ℚ) + ((maxUpOf S role mode weeks : ℤ) : ℚ)))
    0 ((PARAMS role).maxOrder : ℚ))

/-- The request body as consumed by `computeOrders`: an optional `mode`
string and an optional `weeks` array. -/
structure Body where
  mode : Option String
  weeks : Option (List Week)

/-- Request `mode` normalisation: `"glassbox"` selects glassbox, anything else
(including absence) selects blackbox. -/
def modeOf (body : Body) : Mode :=
  if body.mode = some "glassbox" then Mode.glassbox else Mode.blackbox

/-- Source `Array.isArray(body?.weeks) ? body.weeks : []`. -/
def weeksOf (body : Body) : List Week := body.weeks.getD []

/-- Source `computeOrders(body)` of the v1.1.0 variant, as a map from role to
order. -/
def computeOrders (body : Body) : Role → ℤ :=
  let weeks := weeksOf body
  if weeks.isEmpty then fun _ => 10
  else fun role => computeOrderForRole S role (modeOf body) weeks

end WithSqrt2

/-! ## Spec-modelled newest controller variant

The specification describes a third, most advanced controller variant
(pressure-based re-tuning, backlog drain, a `clearWeeks` time constant,
retailer parameters `{L=4, safetyWeeks=1.05, z=1.0, clearWeeks=2.2,
smooth=0.18, maxOrder=400}`) whose source file is not present under the
source tree; only the two older variants are.  The definitions below are
modelled from the spec's words for that missing variant. -/

/-- Modelled from the spec: parameter record of the missing newest
controller variant, with the backlog-clearance time constant. -/
structure ParamsV2 extends Params where
  clearWeeks : ℚ

/-- Modelled from the spec: the retailer parameter record of the missing
variant, `{L=4, safetyWeeks=1.05, z=1.0, clearWeeks=2.2, smooth=0.18,
maxOrder=400}`.  The forecast-adaptivity fields are not given by the spec;
they are carried over from the v1.1.0 retailer record and are unused by
every statement proved about this model (the worked scenario's series has
a single observation, so the seed forecast is returned unchanged). -/
def retailerV2 : ParamsV2 where
  L := 4
  alphaBase := 55/100
  alphaMin := 20/100
  alphaMax := 85/100
  alphaK := 35/100
  smooth := 18/100
  safetyWeeks := 105/100
  z := 1
  clipWindow := 0
  clipK := 0
  maxOrder := 400
  clearWeeks := 22/10

/-- The trailing six entries of a series. -/
def last6 (l : List ℤ) : List ℤ := l.drop (l.length - 6)

/-- Modelled from the spec: the pressure ratio of the missing variant,
`(trailing-6-week average backlog + 1) / (trailing-6-week average
inventory + 1)`. -/
def pressureOf (inv back : List ℤ) : ℚ :=
  (mean (intCastList (last6 back)) + 1) / (mean (intCastList (last6 inv)) + 1)

/-- Modelled from the spec: the fixed band into which the effective safety
weeks are clamped.  The band's endpoints are not given numerically by the
spec; `[0.6, 1.6]` is chosen wide enough that it does not bind on any of
the configured records, consistent with the worked scenario. -/
def clampBandV2 (sw : ℚ) : ℚ := clamp sw (6/10) (16/10)

/-- Modelled from the spec: the pressure-driven re-tuning of the missing
variant.  Pressure above 1.5 raises safety weeks and lowers the smoothing
weight; pressure below 0.7 lowers safety weeks and raises the smoothing
weight; the adjustment magnitudes (0.10 on safety weeks, 0.06 on the
smoothing weight) are fixed by the spec's worked scenario
(`1.05 → 0.95` and `0.18 → 0.24`). -/
def adjustTuningV2 (sw sm pressure : ℚ) : ℚ × ℚ :=
  if 3/2 < pressure then (clampBandV2 (sw + 1/10), sm - 6/100)
  else if pressure < 7/10 then (clampBandV2 (sw - 1/10), sm + 6/100)
  else (clampBandV2 sw, sm)

/-- Modelled from the spec: the backlog-drain addend of the missing
variant, `round(backlog / max(1.5, clearWeeks))` capped at
`round(2.0 × max(1, forecast))`. -/
def drainOfV2 (backNow : ℤ) (clearWeeks forecast : ℚ) : ℤ :=
  min (jsRound ((backNow : ℚ) / max (3/2) clearWeeks)) (jsRound (2 * max 1 forecast))

/-- Modelled from the spec: the pipeline estimator of the missing variant,
seeded with `max(0, round(L × max(1, rate)))` and updated with
`pipe = max(0, pipe − arrivals) + orders` per period. -/
def estimatePipelineV2 (arrShip myOrders : List ℤ) (rate : ℚ) (L : ℕ) : ℤ :=
  pipeAux (max 0 (jsRound ((L : ℚ) * max 1 rate))) arrShip myOrders

/-- Modelled from the spec: the initial-rate estimate fed to the pipeline
estimator of the missing variant.  The worked scenario seeds the pipeline
at `round(4×8)` where `8` is the arriving-shipment level, so the rate is
taken as the mean of the arriving-shipment series. -/
def rateV2 (role : Role) (weeks : List Week) : ℚ :=
  mean (intCastList (roleHistory weeks role).arrShip)

section WithSqrtV2

variable (S : ℚ → ℚ)

/-- Modelled from the spec: the demand series of the missing variant (same
selection and clipping gate as v1.1.0, with the record's own clip
parameters). -/
def demandSeriesV2 (p : ParamsV2) (role : Role) (mode : Mode) (weeks : List Week) : List ℚ :=
  let base := baseSeries role mode weeks
  if mode == Mode.blackbox && p.clipWindow != 0 && role != Role.retailer then
    clipSeriesRolling S base p.clipWindow p.clipK
  else base

/-- Modelled from the spec: the forecast of the missing variant (adaptive
exponential smoothing as in §4.4, identical to the v1.1.0 forecaster). -/
def forecastV2 (p : ParamsV2) (role : Role) (mode : Mode) (weeks : List Week) : ℚ :=
  adaptiveSES p.toParams (demandSeriesV2 S p role mode weeks)

/-- Modelled from the spec: recent volatility of the missing variant
(sample standard deviation of the trailing 8 demand observations). -/
def sigmaV2 (p : ParamsV2) (role : Role) (mode : Mode) (weeks : List Week) : ℚ :=
  stdev S ((demandSeriesV2 S p role mode weeks).drop
    ((demandSeriesV2 S p role mode weeks).length - 8))

end WithSqrtV2

/-- Modelled from the spec: the pressure ratio computed by the missing
variant's controller from the role's own inventory/backlog history. -/
def pressureV2 (role : Role) (weeks : List Week) : ℚ :=
  pressureOf (roleHistory weeks role).inv (roleHistory weeks role).back

/-- Modelled from the spec: the effective (safetyWeeks, smoothing-weight)
pair after pressure re-tuning.  Glassbox mode first reduces safety weeks
slightly (by 0.05, a magnitude the spec does not fix numerically). -/
def tuningV2 (p : ParamsV2) (role : Role) (mode : Mode) (weeks : List Week) : ℚ × ℚ :=
  adjustTuningV2
    (p.safetyWeeks - (match mode with | Mode.glassbox => 1/20 | Mode.blackbox => 0))
    p.smooth (pressureV2 role weeks)

/-- Modelled from the spec: the pipeline estimate of the missing variant. -/
def pipeV2 (p : ParamsV2) (role : Role) (weeks : List Week) : ℤ :=
  estimatePipelineV2 (roleHistory weeks role).arrShip (roleHistory weeks role).myOrders
    (rateV2 role weeks) p.L

section WithSqrtV2b

variable (S : ℚ → ℚ)

/-- Modelled from the spec: safety stock of the missing variant, using the
pressure-adjusted safety weeks. -/
def safetyV2 (p : ParamsV2) (role : Role) (mode : Mode) (weeks : List Week) : ℤ :=
  max 0 (jsRound ((tuningV2 p role mode weeks).1 * forecastV2 S p role mode weeks
    + p.z * sigmaV2 S p role mode weeks * S ((p.L : ℚ) + 1)))

/-- Modelled from the spec: order-up-to target of the missing variant. -/
def targetV2 (p : ParamsV2) (role : Role) (mode : Mode) (weeks : List Week) : ℤ :=
  jsRound (((p.L : ℚ) + 1) * forecastV2 S p role mode weeks
    + ((safetyV2 S p role mode weeks : ℤ) : ℚ))

/-- Modelled from the spec: raw order `max(0, target − IP)` of the missing
variant, with `IP = inventory − backlog + pipeline`. -/
def rawV2 (p : ParamsV2) (role : Role) (mode : Mode) (weeks : List Week) : ℤ :=
  max 0 (targetV2 S p role mode weeks
    - (lastD (roleHistory weeks role).inv - lastD (roleHistory weeks role).back
        + pipeV2 p role weeks))

/-- Modelled from the spec: the backlog-drain addend as applied by the
missing variant's controller. -/
def drainV2 (p : ParamsV2) (role : Role) (mode : Mode) (weeks : List Week) : ℤ :=
  drainOfV2 (lastD (roleHistory weeks role).back) p.clearWeeks
    (forecastV2 S p role mode weeks)

/-- Modelled from the spec: the order submitted to the smoother — raw
order plus the backlog-drain addend. -/
def rawPlusV2 (p : ParamsV2) (role : Role) (mode : Mode) (weeks : List Week) : ℤ :=
  rawV2 S p role mode weeks + drainV2 S p role mode weeks

/-- Modelled from the spec: the smoothed order of the missing variant,
using the pressure-adjusted smoothing weight. -/
def smoothedV2 (p : ParamsV2) (role : Role) (mode : Mode) (weeks : List Week) : ℚ :=
  (1 - (tuningV2 p role mode weeks).2) * ((rawPlusV2 S p role mode weeks : ℤ) : ℚ)
    + (tuningV2 p role mode weeks).2 * ((lastD (roleHistory weeks role).myOrders : ℤ) : ℚ)

/-- Modelled from the spec: rate-limit bound on increase of the missing
variant; the worked scenario fixes `maxUp = round(4.5·max(1, forecast))`
at zero backlog (63 at forecast 14) and a larger factor 6 under backlog. -/
def maxUpV2 (p : ParamsV2) (role : Role) (mode : Mode) (weeks : List Week) : ℤ :=
  max 10 (jsRound ((if 0 < lastD (roleHistory weeks role).back then 6 else 9/2)
    * max 1 (forecastV2 S p role mode weeks)))

/-- Modelled from the spec: rate-limit bound on decrease of the missing
variant; the worked scenario fixes `maxDown = round(2.6·max(1, forecast))`
(36 at forecast 14). -/
def maxDownV2 (p : ParamsV2) (role : Role) (mode : Mode) (weeks : List Week) : ℤ :=
  max 10 (jsRound (26/10 * max 1 (forecastV2 S p role mode weeks)))

/-- Modelled from the spec: the final order of the missing newest
controller variant — smoothed order, rate-limited, clamped into
`[0, maxOrder]`, rounded to a non-negative integer. -/
def computeOrderForRoleV2 (p : ParamsV2) (role : Role) (mode : Mode) (weeks : List Week) : ℤ :=
  toNonNegInt (clamp
    (clamp (smoothedV2 S p role mode weeks)
      ((lastD (roleHistory weeks role).myOrders : ℚ) - ((maxDownV2 S p role mode weeks : ℤ) : ℚ))
      ((lastD (roleHistory weeks role).myOrders : ℚ) + ((maxUpV2 S p role mode weeks : ℤ) : ℚ)))
    0 (p.maxOrder : ℚ))

end WithSqrtV2b

/-! ## Helper lemmas -/

/-- The `clamp` function never exceeds its upper bound when the bounds are ordered. -/
lemma clamp_le_hi {x lo hi : ℚ} (h : lo ≤ hi) : clamp x lo hi ≤ hi :=
  max_le h (min_le_left _ _)

/-- The `toNonNegInt` conversion is non-negative. -/
lemma toNonNegInt_nonneg (x : ℚ) : 0 ≤ toNonNegInt x := le_max_left 0 _

/-- The `toNonNegInt` conversion respects an integer upper bound. -/
lemma toNonNegInt_le_of_le {q : ℚ} {M : ℤ} (h0 : 0 ≤ M) (h : q ≤ (M : ℚ)) :
    toNonNegInt q ≤ M := by
  have hf : ⌊q + 1/2⌋ ≤ M := by
    calc ⌊q + 1/2⌋ ≤ ⌊(M : ℚ) + 1/2⌋ := Int.floor_le_floor (by linarith)
    _ = M + ⌊(1/2 : ℚ)⌋ := Int.floor_int_add M (1/2)
    _ = M := by norm_num
  exact max_le h0 hf

/-! ## Claims -/

/-- C2: for every request body in which `weeks` is absent or an empty
array, in either mode, `computeOrders` returns the fixed default order 10
for every role; the per-role controller branch of `computeOrders` is not
taken (the function returns from the empty-history test before calling
`computeOrderForRole`). -/
theorem c2_empty_weeks_fallback (S : ℚ → ℚ) (body : Body)
    (h : body.weeks = none ∨ body.weeks = some []) (role : Role) :
    computeOrders S body role = 10 := by
  rcases h with h | h <;> simp [computeOrders, weeksOf, h]

/-- Witness for C2 at the concrete body `{mode: none, weeks: none}`. -/
theorem c2_empty_weeks_fallback_witness :
    (Body.mk none none).weeks = none
      ∧ computeOrders (fun _ => 0) (Body.mk none none) Role.retailer = 10 :=
  ⟨rfl, c2_empty_weeks_fallback (fun _ => 0) (Body.mk none none) (Or.inl rfl) Role.retailer⟩

/-- C1: for every request body and role, the returned order is an integer
(by construction it lives in ℤ) with `0 ≤ order ≤ maxOrder` for that
role's parameter record, and the result depends on the body only through
the normalised mode and the weeks history (purity). -/
theorem c1_order_range_and_pure (S : ℚ → ℚ) (body : Body) (role : Role) :
    (0 ≤ computeOrders S body role
      ∧ computeOrders S body role ≤ ((PARAMS role).maxOrder : ℤ))
    ∧ (∀ body2 : Body, modeOf body = modeOf body2 → weeksOf body = weeksOf body2 →
        computeOrders S body role = computeOrders S body2 role) := by
  constructor
  · unfold computeOrders
    by_cases h : (weeksOf body).isEmpty
    · simp only [h, if_true]
      cases role <;> simp [PARAMS]
    · simp only [h, if_false]
      unfold computeOrderForRole
      refine ⟨toNonNegInt_nonneg _, toNonNegInt_le_of_le (by positivity) ?_⟩
      exact clamp_le_hi (by positivity)
  · intro b2 h1 h2
    unfold computeOrders
    rw [h1, h2]

/-- Witness for C1: the purity conjunct applied at two concrete bodies
with equal normalised mode and weeks. -/
theorem c1_order_range_and_pure_witness :
    computeOrders (fun _ => 0) (Body.mk none none) Role.retailer
      = computeOrders (fun _ => 0) (Body.mk (some "x") (some [])) Role.retailer :=
  (c1_order_range_and_pure (fun _ => 0) (Body.mk none none) Role.retailer).2
    (Body.mk (some "x") (some [])) rfl rfl

/-- C9: holding the forecast, sigma and pipeline estimate (and current
inventory) fixed, the raw order `max(0, target − IP)` is monotone
non-decreasing in the current backlog (a larger backlog lowers `IL` and
hence `IP`). -/
theorem c9_raw_order_monotone_in_backlog (S : ℚ → ℚ) (p : Params)
    (forecast sigma : ℚ) (invNow pipe b1 b2 : ℤ) (h : b1 ≤ b2) :
    rawOrderOf S p forecast sigma invNow b1 pipe
      ≤ rawOrderOf S p forecast sigma invNow b2 pipe := by
  unfold rawOrderOf
  exact max_le_max le_rfl (by omega)

/-- Witness for C9 at concrete inputs (backlogs 0 ≤ 5). -/
theorem c9_raw_order_monotone_in_backlog_witness :
    (0 : ℤ) ≤ 5
      ∧ rawOrderOf (fun _ => 0) (PARAMS Role.retailer) 0 0 0 0 0
          ≤ rawOrderOf (fun _ => 0) (PARAMS Role.retailer) 0 0 0 5 0 :=
  ⟨by decide,
    c9_raw_order_monotone_in_backlog (fun _ => 0) (PARAMS Role.retailer) 0 0 0 0 0 5 (by decide)⟩

/-- C8: for any fixed history, every role's demand series under glassbox
is the shared reference series — which equals the retailer's own
incoming-orders series — and under blackbox it is the role's own
incoming-orders series, clipped exactly when the clipping gate applies. -/
theorem c8_mode_selects_demand_series (S : ℚ → ℚ) (weeks : List Week) :
    (∀ role, demandSeriesForRole S role Mode.glassbox weeks
        = intCastList (chooseSharedDemandSeries weeks))
    ∧ chooseSharedDemandSeries weeks = (roleHistory weeks Role.retailer).incOrd
    ∧ (∀ role, demandSeriesForRole S role Mode.blackbox weeks =
        if clipApplies role Mode.blackbox then
          clipSeriesRolling S (intCastList ((roleHistory weeks role).incOrd))
            (PARAMS role).clipWindow (PARAMS role).clipK
        else intCastList ((roleHistory weeks role).incOrd)) := by
  refine ⟨fun role => ?_, rfl, fun role => ?_⟩
  · have hgate : clipApplies role Mode.glassbox = false := by
      cases role <;> rfl
    simp [demandSeriesForRole, hgate, baseSeries]
  · by_cases hgate : clipApplies role Mode.blackbox
    · simp [demandSeriesForRole, hgate, baseSeries]
    · simp only [Bool.not_eq_true] at hgate
      simp [demandSeriesForRole, hgate, baseSeries]

/-- C5: the order submitted to the smoother is the raw order plus the
backlog-drain addend `round(backlog / max(1.5, clearWeeks))` capped at
`round(2·max(1, forecast))`; the smoother then blends it with the
previous order using the pressure-adjusted smoothing weight. -/
theorem c5_backlog_drain_addend (S : ℚ → ℚ) (p : ParamsV2) (role : Role)
    (mode : Mode) (weeks : List Week) :
    rawPlusV2 S p role mode weeks
      = rawV2 S p role mode weeks
        + min (jsRound ((lastD (roleHistory weeks role).back : ℚ)
                / max (3/2) p.clearWeeks))
            (jsRound (2 * max 1 (forecastV2 S p role mode weeks)))
    ∧ drainV2 S p role mode weeks ≤ jsRound (2 * max 1 (forecastV2 S p role mode weeks))
    ∧ smoothedV2 S p role mode weeks
      = (1 - (tuningV2 p role mode weeks).2) * ((rawPlusV2 S p role mode weeks : ℤ) : ℚ)
        + (tuningV2 p role mode weeks).2
            * ((lastD (roleHistory weeks role).myOrders : ℤ) : ℚ) := by
  refine ⟨rfl, min_le_right _ _, rfl⟩

/-- Reading `getD` at 0 is `headD`. -/
lemma getD_zero_headD (os : List ℤ) : os.getD 0 0 = os.headD 0 := by
  cases os <;> rfl

/-- Reading `getD` at a successor index reads the tail. -/
lemma getD_succ_tail (os : List ℤ) (i : ℕ) (d : ℤ) :
    os.getD (i + 1) d = os.tail.getD i d := by
  cases os <;> rfl

/-- The pipeline loop is the left fold of the per-period update
`pipe ↦ max(0, pipe − arrShip[i]) + myOrders[i]` over the period indices. -/
lemma pipeAux_eq_foldl_range :
    ∀ (arr os : List ℤ) (pipe : ℤ),
      pipeAux pipe arr os
        = List.foldl (fun p i => max 0 (p - arr.getD i 0) + os.getD i 0) pipe
            (List.range arr.length) := by
  intro arr
  induction arr with
  | nil => intro os pipe; rfl
  | cons a arr ih =>
      intro os pipe
      rw [pipeAux, List.length_cons, List.range_succ_eq_map, List.foldl_cons,
        List.foldl_map, ih os.tail]
      have h0 : os.getD 0 0 = os.headD 0 := getD_zero_headD os
      simp only [List.getD_cons_zero, List.getD_cons_succ, h0]
      congr 1
      funext p i
      rw [getD_succ_tail]

/-- C7 (amended): the pipeline estimator starts from
`max(0, round(L × r))` — without the `max(1, ·)` floor the claim states —
and then, for each period in order, applies
`pipeline = max(0, pipeline − arrivals[i]) + orders[i]`. -/
theorem c7_pipeline_seed_and_updates (arrShip myOrders : List ℤ) (r : ℚ) (L : ℕ) :
    estimatePipeline arrShip myOrders r L
      = List.foldl (fun p i => max 0 (p - arrShip.getD i 0) + myOrders.getD i 0)
          (max 0 (jsRound ((L : ℚ) * r))) (List.range arrShip.length) :=
  pipeAux_eq_foldl_range arrShip myOrders _

/-- C7 counterexample: on an empty history the estimator returns its seed,
and at rate `r = 0`, lead time `L = 4`, the code's seed is `0`; the
claim's stated seed `max(0, round(L × max(1, r)))` is `4`. -/
theorem c7_seed_counterexample :
    estimatePipeline [] [] 0 4 ≠ max 0 (jsRound ((4 : ℚ) * max 1 0)) := by
  norm_num [estimatePipeline, pipeAux, jsRound]

/-- C4: the controller's pressure ratio is
`(trailing-6-week average backlog + 1) / (trailing-6-week average
inventory + 1)`; pressure above 1.5 strictly raises the effective safety
weeks and strictly lowers the smoothing weight, pressure below 0.7 does
the opposite (whenever the fixed clamp band does not bind), and the
resulting safety weeks always lie in the fixed band `[0.6, 1.6]`. -/
theorem c4_pressure_retuning (role : Role) (weeks : List Week) :
    pressureV2 role weeks
      = (mean (intCastList (last6 (roleHistory weeks role).back)) + 1)
        / (mean (intCastList (last6 (roleHistory weeks role).inv)) + 1)
    ∧ (∀ sw sm pr : ℚ, 3/2 < pr → 3/5 ≤ sw + 1/10 → sw + 1/10 ≤ 8/5 →
        sw < (adjustTuningV2 sw sm pr).1 ∧ (adjustTuningV2 sw sm pr).2 < sm)
    ∧ (∀ sw sm pr : ℚ, pr < 7/10 → 3/5 ≤ sw - 1/10 → sw - 1/10 ≤ 8/5 →
        (adjustTuningV2 sw sm pr).1 < sw ∧ sm < (adjustTuningV2 sw sm pr).2)
    ∧ (∀ sw sm pr : ℚ, 3/5 ≤ (adjustTuningV2 sw sm pr).1
        ∧ (adjustTuningV2 sw sm pr).1 ≤ 8/5) := by
  refine ⟨rfl, ?_, ?_, ?_⟩
  · intro sw sm pr h1 h2 h3
    rw [adjustTuningV2, if_pos h1]
    constructor
    · show sw < clampBandV2 (sw + 1/10)
      rw [clampBandV2, clamp]
      have hmin : min (16/10) (sw + 1/10) = sw + 1/10 := min_eq_right (by linarith)
      rw [hmin]
      have hmax : max (6/10) (sw + 1/10) = sw + 1/10 := max_eq_right (by linarith)
      rw [hmax]; linarith
    · show sm - 6/100 < sm
      linarith
  · intro sw sm pr h1 h2 h3
    rw [adjustTuningV2, if_neg (by linarith : ¬ (3/2 : ℚ) < pr), if_pos h1]
    constructor
    · show clampBandV2 (sw - 1/10) < sw
      rw [clampBandV2, clamp]
      have hmin : min (16/10) (sw - 1/10) = sw - 1/10 := min_eq_right (by linarith)
      rw [hmin]
      have hmax : max (6/10) (sw - 1/10) = sw - 1/10 := max_eq_right (by linarith)
      rw [hmax]; linarith
    · show sm < sm + 6/100
      linarith
  · intro sw sm pr
    have hband : ∀ x : ℚ, 3/5 ≤ clampBandV2 x ∧ clampBandV2 x ≤ 8/5 := by
      intro x
      constructor
      · calc (3/5 : ℚ) = 6/10 := by norm_num
        _ ≤ clampBandV2 x := le_max_left _ _
      · calc clampBandV2 x ≤ 16/10 := max_le (by norm_num) (min_le_left _ _)
        _ = 8/5 := by norm_num
    rw [adjustTuningV2]
    by_cases h1 : (3/2 : ℚ) < pr
    · rw [if_pos h1]; exact hband _
    · rw [if_neg h1]
      by_cases h2 : pr < 7/10
      · rw [if_pos h2]; exact hband _
      · rw [if_neg h2]; exact hband _

/-- Witness for C4: the high-pressure branch at safety weeks 1, smoothing
weight 18/100, pressure 2, and the low-pressure branch at pressure 0. -/
theorem c4_pressure_retuning_witness :
    ((1 : ℚ) < (adjustTuningV2 1 (18/100) 2).1 ∧ (adjustTuningV2 1 (18/100) 2).2 < 18/100)
    ∧ ((adjustTuningV2 1 (18/100) 0).1 < 1 ∧ (18/100 : ℚ) < (adjustTuningV2 1 (18/100) 0).2) :=
  ⟨(c4_pressure_retuning Role.retailer []).2.1 1 (18/100) 2
      (by norm_num) (by norm_num) (by norm_num),
    (c4_pressure_retuning Role.retailer []).2.2.1 1 (18/100) 0
      (by norm_num) (by norm_num) (by norm_num)⟩

/-- The single-week snapshot of the spec's worked scenario: retailer
inventory 12, backlog 0, incoming orders 14, arriving shipments 8,
previous retailer order 10. -/
def scenarioWeek : Week where
  roles := fun r =>
    match r with
    | Role.retailer => ⟨some 12, some 0, some 14, some 8⟩
    | _ => ⟨none, none, none, none⟩
  orders := fun r => match r with | Role.retailer => some 10 | _ => none

/-- C3: the spec's worked scenario on the modelled newest variant — all
stated intermediates (forecast 14, pressure 1/13 with the inventory-bloat
branch giving safety weeks 0.95 and smoothing weight 0.24, pipeline 34,
IP 46, safety 13, target 83, raw 37, drain 0, smoothed 30.52) and the
final retailer order 31. -/
theorem c3_worked_scenario (S : ℚ → ℚ) :
    forecastV2 S retailerV2 Role.retailer Mode.blackbox [scenarioWeek] = 14
    ∧ pressureV2 Role.retailer [scenarioWeek] = 1/13
    ∧ tuningV2 retailerV2 Role.retailer Mode.blackbox [scenarioWeek] = (19/20, 6/25)
    ∧ pipeV2 retailerV2 Role.retailer [scenarioWeek] = 34
    ∧ lastD (roleHistory [scenarioWeek] Role.retailer).inv
        - lastD (roleHistory [scenarioWeek] Role.retailer).back
        + pipeV2 retailerV2 Role.retailer [scenarioWeek] = 46
    ∧ safetyV2 S retailerV2 Role.retailer Mode.blackbox [scenarioWeek] = 13
    ∧ targetV2 S retailerV2 Role.retailer Mode.blackbox [scenarioWeek] = 83
    ∧ rawV2 S retailerV2 Role.retailer Mode.blackbox [scenarioWeek] = 37
    ∧ drainV2 S retailerV2 Role.retailer Mode.blackbox [scenarioWeek] = 0
    ∧ smoothedV2 S retailerV2 Role.retailer Mode.blackbox [scenarioWeek] = 763/25
    ∧ computeOrderForRoleV2 S retailerV2 Role.retailer Mode.blackbox [scenarioWeek] = 31 := by
  have hds : demandSeriesV2 S retailerV2 Role.retailer Mode.blackbox [scenarioWeek] = [14] := by
    norm_num [demandSeriesV2, baseSeries, intCastList, roleHistory,
      getNum, toNonNegInt, jsRound, retailerV2, scenarioWeek]
  have hf : forecastV2 S retailerV2 Role.retailer Mode.blackbox [scenarioWeek] = 14 := by
    rw [forecastV2, hds]; norm_num [adaptiveSES]
  have hsig : sigmaV2 S retailerV2 Role.retailer Mode.blackbox [scenarioWeek] = 0 := by
    rw [sigmaV2, hds]; norm_num [stdev]
  have hpr : pressureV2 Role.retailer [scenarioWeek] = 1/13 := by
    norm_num [pressureV2, pressureOf, last6, mean, intCastList, roleHistory, getNum,
      toNonNegInt, jsRound, scenarioWeek]
  have htu : tuningV2 retailerV2 Role.retailer Mode.blackbox [scenarioWeek] = (19/20, 6/25) := by
    rw [tuningV2, hpr]
    norm_num [adjustTuningV2, clampBandV2, clamp, retailerV2]
  have hpipe : pipeV2 retailerV2 Role.retailer [scenarioWeek] = 34 := by
    norm_num [pipeV2, estimatePipelineV2, pipeAux, rateV2, mean, intCastList, roleHistory,
      getNum, toNonNegInt, jsRound, retailerV2, scenarioWeek]
  have hsafe : safetyV2 S retailerV2 Role.retailer Mode.blackbox [scenarioWeek] = 13 := by
    rw [safetyV2, htu, hf, hsig]; norm_num [jsRound, retailerV2]
  have htgt : targetV2 S retailerV2 Role.retailer Mode.blackbox [scenarioWeek] = 83 := by
    rw [targetV2, hf, hsafe]; norm_num [jsRound, retailerV2]
  have hraw : rawV2 S retailerV2 Role.retailer Mode.blackbox [scenarioWeek] = 37 := by
    rw [rawV2, htgt, hpipe]
    norm_num [roleHistory, getNum, toNonNegInt, jsRound, lastD, scenarioWeek]
  have hdrain : drainV2 S retailerV2 Role.retailer Mode.blackbox [scenarioWeek] = 0 := by
    rw [drainV2, hf]
    norm_num [drainOfV2, roleHistory, getNum, toNonNegInt, jsRound, lastD, retailerV2,
      scenarioWeek]
  have hsm : smoothedV2 S retailerV2 Role.retailer Mode.blackbox [scenarioWeek] = 763/25 := by
    rw [smoothedV2, htu, rawPlusV2, hraw, hdrain]
    norm_num [roleHistory, getNum, toNonNegInt, jsRound, lastD, scenarioWeek]
  have hup : maxUpV2 S retailerV2 Role.retailer Mode.blackbox [scenarioWeek] = 63 := by
    rw [maxUpV2, hf]
    norm_num [jsRound, roleHistory, getNum, toNonNegInt, lastD, scenarioWeek]
  have hdn : maxDownV2 S retailerV2 Role.retailer Mode.blackbox [scenarioWeek] = 36 := by
    rw [maxDownV2, hf]; norm_num [jsRound]
  have hfinal : computeOrderForRoleV2 S retailerV2 Role.retailer Mode.blackbox [scenarioWeek]
      = 31 := by
    rw [computeOrderForRoleV2, hsm, hup, hdn]
    norm_num [roleHistory, getNum, toNonNegInt, jsRound, lastD, clamp, retailerV2,
      scenarioWeek]
  have hip : lastD (roleHistory [scenarioWeek] Role.retailer).inv
      - lastD (roleHistory [scenarioWeek] Role.retailer).back
      + pipeV2 retailerV2 Role.retailer [scenarioWeek] = 46 := by
    rw [hpipe]
    norm_num [roleHistory, getNum, toNonNegInt, jsRound, lastD, scenarioWeek]
  exact ⟨hf, hpr, htu, hpipe, hip, hsafe, htgt, hraw, hdrain, hsm, hfinal⟩

/-- The clipping loop only appends to its accumulator. -/
lemma clipAux_append (S : ℚ → ℚ) (w : ℕ) (k : ℚ) :
    ∀ (l out : List ℚ), ∃ t, clipAux S w k out l = out ++ t ∧ t.length = l.length := by
  intro l
  induction l with
  | nil => intro out; exact ⟨[], by simp [clipAux]⟩
  | cons x rest ih =>
      intro out
      obtain ⟨t, ht, hlen⟩ := ih (out ++ [clipVal S k (out.drop (out.length - w)) x])
      refine ⟨clipVal S k (out.drop (out.length - w)) x :: t, ?_, by simp [hlen]⟩
      rw [clipAux, ht]
      simp

/-- The clipped series has the length of its input. -/
lemma clipSeriesRolling_length (S : ℚ → ℚ) (s : List ℚ) (w : ℕ) (k : ℚ) :
    (clipSeriesRolling S s w k).length = s.length := by
  obtain ⟨t, ht, hlen⟩ := clipAux_append S w k s []
  simp [clipSeriesRolling, ht, hlen]

/-- Positional characterisation of the clipping loop: the entry written at
position `out.length + j` is the clip step applied to the window of
already-clipped values `[out.length + j − w, out.length + j)` of the final
output. -/
lemma clipAux_getD (S : ℚ → ℚ) (w : ℕ) (k : ℚ) :
    ∀ (l out : List ℚ) (j : ℕ), j < l.length →
      (clipAux S w k out l).getD (out.length + j) 0
        = clipVal S k (((clipAux S w k out l).take (out.length + j)).drop
            (out.length + j - w)) (l.getD j 0) := by
  intro l
  induction l with
  | nil => intro out j hj; simp at hj
  | cons x rest ih =>
      intro out j hj
      have hstep : clipAux S w k out (x :: rest)
          = clipAux S w k (out ++ [clipVal S k (out.drop (out.length - w)) x]) rest := by
        rw [clipAux]
      cases j with
      | zero =>
          obtain ⟨t, ht, hlen⟩ :=
            clipAux_append S w k rest (out ++ [clipVal S k (out.drop (out.length - w)) x])
          rw [hstep, ht]
          have hidx : ((out ++ [clipVal S k (out.drop (out.length - w)) x]) ++ t).getD
              (out.length + 0) 0 = clipVal S k (out.drop (out.length - w)) x := by
            rw [List.getD_append _ _ _ _ (by simp)]
            rw [List.getD_append_right _ _ _ _ (by simp)]
            simp
          rw [hidx]
          have htake : (((out ++ [clipVal S k (out.drop (out.length - w)) x]) ++ t).take
              (out.length + 0)) = out := by
            rw [List.take_append_of_le_length (by simp)]
            rw [List.take_append_of_le_length (by simp)]
            simp
          rw [htake]
          simp
      | succ j =>
          have hlen2 : out.length + (j + 1)
              = (out ++ [clipVal S k (out.drop (out.length - w)) x]).length + j := by
            simp
            omega
          rw [hstep, hlen2]
          have hj2 : j < rest.length := by
            simp at hj
            omega
          simpa using ih (out ++ [clipVal S k (out.drop (out.length - w)) x]) j hj2

/-- C6: the rolling clipper runs exactly when the mode is blackbox, the
role is not the retailer and the role's clip window is non-zero; and at
each position `i` of the series it passes the value through unchanged when
fewer than 3 already-clipped values exist in the window `[i − w, i)`, and
otherwise clamps it into `[m − k·scale, m + k·scale]` where `m` is the
window's median and `scale` is `1.4826·MAD` when `MAD > 0`, else the
window's sample standard deviation. -/
theorem c6_rolling_clipper (S : ℚ → ℚ) (role : Role) (mode : Mode) (weeks : List Week)
    (s : List ℚ) (w : ℕ) (k : ℚ) (i : ℕ) :
    (clipApplies role mode = true ↔
      (mode = Mode.blackbox ∧ role ≠ Role.retailer ∧ (PARAMS role).clipWindow ≠ 0))
    ∧ (clipApplies role mode = true →
        demandSeriesForRole S role mode weeks
          = clipSeriesRolling S (baseSeries role mode weeks)
              (PARAMS role).clipWindow (PARAMS role).clipK)
    ∧ (clipApplies role mode = false →
        demandSeriesForRole S role mode weeks = baseSeries role mode weeks)
    ∧ (i < s.length →
        (clipSeriesRolling S s w k).getD i 0
          = (if (((clipSeriesRolling S s w k).take i).drop (i - w)).length < 3
              then s.getD i 0
              else clamp (s.getD i 0)
                (median (((clipSeriesRolling S s w k).take i).drop (i - w))
                  - k * scaleOf S (((clipSeriesRolling S s w k).take i).drop (i - w)))
                (median (((clipSeriesRolling S s w k).take i).drop (i - w))
                  + k * scaleOf S (((clipSeriesRolling S s w k).take i).drop (i - w))))) := by
  refine ⟨?_, ?_, ?_, ?_⟩
  · cases role <;> cases mode <;> simp [clipApplies, PARAMS]
  · intro hgate
    simp [demandSeriesForRole, hgate]
  · intro hgate
    simp [demandSeriesForRole, hgate]
  · intro hi
    have := clipAux_getD S w k s [] i (by simpa using hi)
    simpa [clipSeriesRolling, clipVal] using this

/-- Witness for C6 at a concrete role, mode, series and position: the gate
holds for the wholesaler in blackbox mode, and position 3 of the series
`[1, 2, 3, 100]` is clamped against the window `[1, 2, 3]`. -/
theorem c6_rolling_clipper_witness :
    (clipApplies Role.wholesaler Mode.blackbox = true)
    ∧ demandSeriesForRole (fun _ => 0) Role.wholesaler Mode.blackbox []
        = clipSeriesRolling (fun _ => 0) (baseSeries Role.wholesaler Mode.blackbox [])
            (PARAMS Role.wholesaler).clipWindow (PARAMS Role.wholesaler).clipK
    ∧ (clipSeriesRolling (fun _ => 0) [1, 2, 3, 100] 6 (23/10)).getD 3 0
        = (if (((clipSeriesRolling (fun _ => 0) [1, 2, 3, 100] 6 (23/10)).take 3).drop
                (3 - 6)).length < 3
            then ([1, 2, 3, 100] : List ℚ).getD 3 0
            else clamp (([1, 2, 3, 100] : List ℚ).getD 3 0)
              (median (((clipSeriesRolling (fun _ => 0) [1, 2, 3, 100] 6 (23/10)).take 3).drop
                  (3 - 6))
                - 23/10 * scaleOf (fun _ => 0)
                    (((clipSeriesRolling (fun _ => 0) [1, 2, 3, 100] 6 (23/10)).take 3).drop
                      (3 - 6)))
              (median (((clipSeriesRolling (fun _ => 0) [1, 2, 3, 100] 6 (23/10)).take 3).drop
                  (3 - 6))
                + 23/10 * scaleOf (fun _ => 0)
                    (((clipSeriesRolling (fun _ => 0) [1, 2, 3, 100] 6 (23/10)).take 3).drop
                      (3 - 6)))) :=
  ⟨rfl,
    (c6_rolling_clipper (fun _ => 0) Role.wholesaler Mode.blackbox [] [] 0 0 0).2.1 rfl,
    (c6_rolling_clipper (fun _ => 0) Role.wholesaler Mode.blackbox [] [1, 2, 3, 100] 6
        (23/10) 3).2.2.2 (by simp)⟩

/-- The median of a list of non-negative values is non-negative. -/
lemma median_nonneg {l : List ℚ} (h : ∀ x ∈ l, 0 ≤ x) : 0 ≤ median l := by
  unfold median
  by_cases hl : l.length = 0
  · simp [hl]
  · simp only [hl, if_false]
    have hmem : ∀ x ∈ List.insertionSort (· ≤ ·) l, 0 ≤ x := fun x hx =>
      h x ((List.mem_insertionSort _).mp hx)
    have hget : ∀ n : ℕ, 0 ≤ (List.insertionSort (· ≤ ·) l).getD n 0 := by
      intro n
      rcases lt_or_ge n (List.insertionSort (· ≤ ·) l).length with hn | hn
      · rw [List.getD_eq_getElem _ _ hn]
        exact hmem _ (List.getElem_mem hn)
      · rw [List.getD_eq_default _ _ hn]
    by_cases hpar : l.length % 2 = 1
    · simp only [hpar, if_pos]
      exact hget _
    · simp only [hpar, if_false]
      have h1 := hget (l.length / 2 - 1)
      have h2 := hget (l.length / 2)
      positivity

/-- The median absolute deviation is non-negative. -/
lemma mad_nonneg (l : List ℚ) : 0 ≤ mad l := by
  unfold mad
  by_cases hl : l.length = 0
  · simp [hl]
  · simp only [hl, if_false]
    apply median_nonneg
    intro x hx
    obtain ⟨y, _, rfl⟩ := List.mem_map.mp hx
    exact abs_nonneg _

/-- With a non-negative square-root model, `stdev` is non-negative. -/
lemma stdev_nonneg {S : ℚ → ℚ} (hS : ∀ q, 0 ≤ S q) (l : List ℚ) : 0 ≤ stdev S l := by
  unfold stdev
  by_cases hl : l.length < 2
  · simp [hl]
  · simp only [hl, if_false]
    exact hS _

/-- With a non-negative square-root model, the clipping scale is
non-negative. -/
lemma scaleOf_nonneg {S : ℚ → ℚ} (hS : ∀ q, 0 ≤ S q) (hist : List ℚ) :
    0 ≤ scaleOf S hist := by
  unfold scaleOf
  by_cases hm : 0 < mad hist
  · simp only [hm, if_pos]
    exact mul_nonneg (by norm_num) hm.le
  · simp only [hm, if_false]
    exact stdev_nonneg hS hist

/-- One clip step preserves non-negativity: the upper clamp bound
`m + k·scale` is non-negative when the window is. -/
lemma clipVal_nonneg {S : ℚ → ℚ} (hS : ∀ q, 0 ≤ S q) {k : ℚ} (hk : 0 ≤ k)
    {hist : List ℚ} (hh : ∀ y ∈ hist, 0 ≤ y) {x : ℚ} (hx : 0 ≤ x) :
    0 ≤ clipVal S k hist x := by
  unfold clipVal
  by_cases hlen : hist.length < 3
  · simpa [hlen] using hx
  · simp only [hlen, if_false]
    have hhi : 0 ≤ median hist + k * scaleOf S hist :=
      add_nonneg (median_nonneg hh) (mul_nonneg hk (scaleOf_nonneg hS hist))
    exact (le_min hhi hx).trans (le_max_right _ _)

/-- The clipping loop preserves non-negativity of all entries. -/
lemma clipAux_nonneg {S : ℚ → ℚ} (hS : ∀ q, 0 ≤ S q) (w : ℕ) {k : ℚ} (hk : 0 ≤ k) :
    ∀ (l out : List ℚ), (∀ y ∈ out, 0 ≤ y) → (∀ y ∈ l, 0 ≤ y) →
      ∀ y ∈ clipAux S w k out l, 0 ≤ y := by
  intro l
  induction l with
  | nil =>
      intro out hout _ y hy
      rw [clipAux] at hy
      exact hout y hy
  | cons x rest ih =>
      intro out hout hl y hy
      rw [clipAux] at hy
      refine ih _ ?_ (fun z hz => hl z (by simp [hz])) y hy
      intro z hz
      rcases List.mem_append.mp hz with hz | hz
      · exact hout z hz
      · have hz' : z = clipVal S k (out.drop (out.length - w)) x := by simpa using hz
        subst hz'
        exact clipVal_nonneg hS hk (fun u hu => hout u (List.drop_subset _ _ hu))
          (hl x (by simp))

/-- Extraction always yields non-negative values. -/
lemma getNum_nonneg (o : Option ℚ) : 0 ≤ getNum o := by
  cases o
  · exact le_refl 0
  · exact toNonNegInt_nonneg _

/-- Every entry of the pre-clipping demand series is non-negative. -/
lemma baseSeries_nonneg (role : Role) (mode : Mode) (weeks : List Week) :
    ∀ y ∈ baseSeries role mode weeks, 0 ≤ y := by
  have hcast : ∀ (l : List ℤ), (∀ n ∈ l, 0 ≤ n) → ∀ y ∈ intCastList l, 0 ≤ y := by
    intro l hl y hy
    unfold intCastList at hy
    obtain ⟨n, hn, rfl⟩ := List.mem_map.mp hy
    exact_mod_cast hl n hn
  cases mode
  · refine hcast _ ?_
    intro n hn
    obtain ⟨wk, _, rfl⟩ := List.mem_map.mp hn
    exact getNum_nonneg _
  · refine hcast _ ?_
    intro n hn
    obtain ⟨wk, _, rfl⟩ := List.mem_map.mp hn
    exact getNum_nonneg _

/-- Each role's clipping strength parameter is non-negative. -/
lemma clipK_nonneg (role : Role) : 0 ≤ (PARAMS role).clipK := by
  cases role <;> norm_num [PARAMS]

/-- The demand series fed to the forecaster is non-negative entrywise,
clipped or not. -/
lemma demandSeriesForRole_nonneg {S : ℚ → ℚ} (hS : ∀ q, 0 ≤ S q) (role : Role)
    (mode : Mode) (weeks : List Week) :
    ∀ y ∈ demandSeriesForRole S role mode weeks, 0 ≤ y := by
  unfold demandSeriesForRole
  by_cases hgate : clipApplies role mode
  · simp only [hgate, if_pos]
    exact clipAux_nonneg hS _ (clipK_nonneg role) _ [] (by simp)
      (baseSeries_nonneg role mode weeks)
  · simp only [hgate, if_false]
    exact baseSeries_nonneg role mode weeks

/-- Adaptive exponential smoothing of a non-negative series is
non-negative whenever the adaptive weight is clamped into a sub-interval
of `[0, 1]`: each update is a convex combination of the previous forecast
and the new observation. -/
lemma adaptiveSES_nonneg {p : Params} (h0 : 0 ≤ p.alphaMin) (h1 : p.alphaMax ≤ 1)
    (h2 : p.alphaMin ≤ p.alphaMax) {series : List ℚ} (hs : ∀ x ∈ series, 0 ≤ x) :
    0 ≤ adaptiveSES p series := by
  have aux : ∀ (rest : List ℚ) (f : ℚ), 0 ≤ f → (∀ y ∈ rest, 0 ≤ y) →
      0 ≤ rest.foldl (fun f y =>
        f + clamp (p.alphaBase + p.alphaK * (|y - f| / (|f| + 1))) p.alphaMin p.alphaMax
              * (y - f)) f := by
    intro rest
    induction rest with
    | nil => intro f hf _; simpa using hf
    | cons y ys ih =>
        intro f hf hys
        rw [List.foldl_cons]
        apply ih
        · have hα0 : 0 ≤ clamp (p.alphaBase + p.alphaK * (|y - f| / (|f| + 1)))
              p.alphaMin p.alphaMax :=
            h0.trans (le_max_left _ _)
          have hα1 : clamp (p.alphaBase + p.alphaK * (|y - f| / (|f| + 1)))
              p.alphaMin p.alphaMax ≤ 1 :=
            (max_le h2 (min_le_left _ _)).trans h1
          set α := clamp (p.alphaBase + p.alphaK * (|y - f| / (|f| + 1)))
            p.alphaMin p.alphaMax with hα
          have hy0 : 0 ≤ y := hys y (by simp)
          have hrw : f + α * (y - f) = (1 - α) * f + α * y := by ring
          rw [hrw]
          have ht1 : 0 ≤ (1 - α) * f := mul_nonneg (by linarith) hf
          have ht2 : 0 ≤ α * y := mul_nonneg hα0 hy0
          linarith
        · intro z hz
          exact hys z (by simp [hz])
  cases series with
  | nil => simp [adaptiveSES]
  | cons x rest =>
      exact aux rest x (hs x (by simp)) (fun y hy => hs y (by simp [hy]))

/-- Every role's adaptive-weight bounds satisfy
`0 ≤ alphaMin ≤ alphaMax ≤ 1`. -/
lemma alpha_bounds (role : Role) :
    0 ≤ (PARAMS role).alphaMin ∧ (PARAMS role).alphaMax ≤ 1
      ∧ (PARAMS role).alphaMin ≤ (PARAMS role).alphaMax := by
  cases role <;> norm_num [PARAMS]

/-- C10: for every role, mode and history, each entry of the demand
series fed to the forecaster is non-negative (clipping preserves
non-negativity because the upper clamp bound `m + k·scale` is
non-negative), and the forecast produced by the adaptive forecaster is
non-negative (each update is a convex combination since the adaptive
weight is clamped into `[alphaMin, alphaMax] ⊆ [0, 1]`). -/
theorem c10_forecast_nonneg (S : ℚ → ℚ) (hS : ∀ q, 0 ≤ S q) (role : Role)
    (mode : Mode) (weeks : List Week) :
    (∀ y ∈ demandSeriesForRole S role mode weeks, 0 ≤ y)
    ∧ 0 ≤ forecastOf S role mode weeks := by
  refine ⟨demandSeriesForRole_nonneg hS role mode weeks, ?_⟩
  obtain ⟨h0, h1, h2⟩ := alpha_bounds role
  exact adaptiveSES_nonneg h0 h1 h2 (demandSeriesForRole_nonneg hS role mode weeks)

/-- Witness for C10 with the zero square-root model on the worked
scenario's history. -/
theorem c10_forecast_nonneg_witness :
    0 ≤ forecastOf (fun _ => 0) Role.wholesaler Mode.blackbox [scenarioWeek] :=
  (c10_forecast_nonneg (fun _ => 0) (fun _ => le_refl 0) Role.wholesaler Mode.blackbox
    [scenarioWeek]).2

end BeerBot
